import Mathlib

/-!
Verification of the Menu state machine of `@headlessui-react`
(`components/menu/menu.tsx`) together with the `compareNumbers`
utility, as a shallow embedding in Lean 4.

Modelling conventions:
* TypeScript `number | null` indices become `Option Int` (JavaScript
  `findIndex` returns `-1` on failure and the reducer can store such a
  number, so `Int` rather than `Nat` is used).
* Mutable ref cells (`MutableRefObject`) are modelled by their current
  contents; the two DOM refs of the state are opaque `Nat` tokens.
* The `shouldClose` predicate is a Lean function `Event → Bool` over an
  opaque event type.  The reducer for `SetShouldClose` compares the old
  predicate with the incoming one using JavaScript reference equality
  (`===`); reference equality is not structural, so the reducer is
  parametrised by an oracle `refEq` for that test.  JavaScript
  guarantees soundness: if `===` answers `true` the two operands are the
  very same function (hence equal as functions), which is the hypothesis
  `refEq f o = true → o = some f` used below.
* JavaScript `indexOf` compares array elements by reference.  Item
  records are compared structurally here; the two notions agree whenever
  the registered ids are pairwise distinct, which is the well-formedness
  hypothesis used for the claims concerned.
-/

/-- Opaque type of DOM / synthetic events fed to the close predicate. -/
abbrev Event := Nat

/-- `type ShouldClose = (event: Event | SyntheticEvent) => boolean`. -/
abbrev ShouldClose := Event → Bool

/-- Contents of a menu item's data ref:
`{ textValue?: string; disabled: boolean }`. -/
structure MenuItemData where
  textValue : Option String
  disabled : Bool
deriving DecidableEq, Repr

/-- `MenuItemDataRef = MutableRefObject<{ textValue?; disabled }>`,
modelled by its current contents. -/
structure MenuItemDataRef where
  current : MenuItemData
deriving DecidableEq, Repr

/-- An element of the `items` array: `{ id: string; dataRef: MenuItemDataRef }`. -/
structure MenuItem where
  id : String
  dataRef : MenuItemDataRef
deriving DecidableEq, Repr

/-- `enum MenuStates { Open, Closed }`. -/
inductive MenuStates where
  | Open
  | Closed
deriving DecidableEq, Repr

/-- `StateDefinition` of the Menu reducer.  `buttonRef` and `itemsRef`
are opaque tokens (their contents are DOM nodes, irrelevant to the
reducer). -/
structure StateDefinition where
  menuState : MenuStates
  buttonRef : Nat
  itemsRef : Nat
  items : List MenuItem
  searchQuery : String
  activeItemIndex : Option Int
  shouldClose : ShouldClose

/-- The `Focus` enum of `utils/calculate-active-index`; `Specific`
carries the target id (in the source the id travels next to the focus
field of the `GoToItem` action). -/
inductive Focus where
  | First
  | Previous
  | Next
  | Last
  | Specific (id : String)
  | Nothing
deriving DecidableEq, Repr

/-- The `MenuActions` union, one constructor per action type. -/
inductive MenuAction where
  | CloseMenu
  | OpenMenu
  | GoToItem (focus : Focus)
  | Search (value : String)
  | ClearSearch
  | RegisterItem (id : String) (dataRef : MenuItemDataRef)
  | UnregisterItem (id : String)
  | SetShouldClose (shouldClose : Option ShouldClose)

/-- JavaScript `Array.prototype.findIndex`: index of the first element
satisfying `p`, `-1` if there is none. -/
def findIdxInt (p : α → Bool) (l : List α) : Int :=
  match l.findIdx? p with
  | some n => (n : Int)
  | none => -1

/-- JavaScript array subscription `l[i]`: `undefined` (here `none`) for
a negative or out-of-range index. -/
def getAtInt? (l : List α) : Int → Option α
  | Int.ofNat n => l[n]?
  | Int.negSucc _ => none

/-- JavaScript `String.prototype.toLowerCase`, character by character (a
kernel-computable formulation of `String.toLower`). -/
def jsToLowerCase (s : String) : String := ⟨s.data.map Char.toLower⟩

/-- JavaScript `String.prototype.startsWith`: does `s` start with
`target`?  (A kernel-computable formulation of `String.startsWith`.) -/
def jsStartsWith (s target : String) : Bool := target.data.isPrefixOf s.data

/-- Modelled from the spec: `calculateActiveIndex` lives in
`utils/calculate-active-index`, which is not among the sources here (the
menu component only imports it).  The spec describes it as a shared
algorithm "supporting directional moves (first/last/next/previous/
nothing) and direct selection by id, skipping disabled items", with
"GoToItem with First/Last always lands on the first/last non-disabled
item, or leaves index null if none exist", and failures degrading to a
no-op.  The reducer instantiates its resolvers with
`resolveId = item.id` and `resolveDisabled = item.dataRef.current.disabled`. -/
def calculateActiveIndex (focus : Focus) (items : List MenuItem)
    (currentActiveIndex : Option Int) : Option Int :=
  let enabled : MenuItem → Bool := fun it => !it.dataRef.current.disabled
  match focus with
  | Focus.First =>
      (items.findIdx? enabled).map (fun n => (n : Int))
  | Focus.Last =>
      match items.reverse.findIdx? enabled with
      | some n => some ((items.length - 1 - n : Nat) : Int)
      | none => none
  | Focus.Next =>
      let start : Nat :=
        match currentActiveIndex with
        | some i => if 0 ≤ i then i.toNat + 1 else 0
        | none => 0
      match (items.drop start).findIdx? enabled with
      | some n => some ((start + n : Nat) : Int)
      | none => currentActiveIndex
  | Focus.Previous =>
      let stop : Nat :=
        match currentActiveIndex with
        | some i => if 0 ≤ i then i.toNat else items.length
        | none => items.length
      match (items.take stop).reverse.findIdx? enabled with
      | some n => some ((stop - 1 - n : Nat) : Int)
      | none => currentActiveIndex
  | Focus.Specific id =>
      match items.findIdx? (fun it => it.id = id) with
      | some n => some (n : Int)
      | none => currentActiveIndex
  | Focus.Nothing => none

/-- `reducers[MenuActionTypes.CloseMenu]`. -/
def closeMenuReducer (state : StateDefinition) : StateDefinition :=
  if state.menuState = MenuStates.Closed then state
  else { state with activeItemIndex := none, menuState := MenuStates.Closed }

/-- `reducers[MenuActionTypes.OpenMenu]`. -/
def openMenuReducer (state : StateDefinition) : StateDefinition :=
  if state.menuState = MenuStates.Open then state
  else { state with menuState := MenuStates.Open }

/-- `reducers[MenuActionTypes.GoToItem]`. -/
def goToItemReducer (state : StateDefinition) (focus : Focus) : StateDefinition :=
  let activeItemIndex := calculateActiveIndex focus state.items state.activeItemIndex
  if state.searchQuery = "" ∧ state.activeItemIndex = activeItemIndex then state
  else { state with searchQuery := "", activeItemIndex := activeItemIndex }

/-- `reducers[MenuActionTypes.Search]`. -/
def searchReducer (state : StateDefinition) (value : String) : StateDefinition :=
  let searchQuery := state.searchQuery ++ jsToLowerCase value
  let m : Int := findIdxInt
    (fun item =>
      (match item.dataRef.current.textValue with
       | some t => jsStartsWith t searchQuery
       | none => false) && !item.dataRef.current.disabled)
    state.items
  if m = -1 ∨ some m = state.activeItemIndex then { state with searchQuery := searchQuery }
  else { state with searchQuery := searchQuery, activeItemIndex := some m }

/-- `reducers[MenuActionTypes.ClearSearch]`. -/
def clearSearchReducer (state : StateDefinition) : StateDefinition :=
  if state.searchQuery = "" then state
  else { state with searchQuery := "" }

/-- `reducers[MenuActionTypes.RegisterItem]`. -/
def registerItemReducer (state : StateDefinition) (id : String)
    (dataRef : MenuItemDataRef) : StateDefinition :=
  { state with items := state.items ++ [{ id := id, dataRef := dataRef }] }

/-- `reducers[MenuActionTypes.UnregisterItem]`.  `currentActiveItem` is
`null` exactly when `activeItemIndex` is `null`, and `undefined` (also
`none` here, distinguished by the guard on `state.activeItemIndex`) when
the active index is out of range; `indexOf` on a missing element yields
`-1`, which the source stores as a number, not as `null`. -/
def unregisterItemReducer (state : StateDefinition) (id : String) : StateDefinition :=
  let currentActiveItem : Option MenuItem :=
    match state.activeItemIndex with
    | some i => getAtInt? state.items i
    | none => none
  let idx : Int := findIdxInt (fun a => a.id = id) state.items
  let nextItems : List MenuItem :=
    if idx = -1 then state.items else state.items.eraseIdx idx.toNat
  { state with
    items := nextItems
    activeItemIndex :=
      if state.activeItemIndex = some idx then none
      else if state.activeItemIndex = none then none
      else
        some (match currentActiveItem with
              | some item => findIdxInt (fun a => a = item) nextItems
              | none => -1) }

/-- The default close predicate `() => true`. -/
def defaultShouldClose : ShouldClose := fun _ => true

/-- `reducers[MenuActionTypes.SetShouldClose]`.  The test
`state.shouldClose === action.shouldClose` is JavaScript reference
equality, supplied as the oracle `refEq` (see the header comment). -/
def setShouldCloseReducer (refEq : ShouldClose → Option ShouldClose → Bool)
    (state : StateDefinition) (shouldClose : Option ShouldClose) : StateDefinition :=
  if refEq state.shouldClose shouldClose then state
  else { state with shouldClose := shouldClose.getD defaultShouldClose }

/-- `stateReducer`: dispatch on the action type (the `match` utility). -/
def stateReducer (refEq : ShouldClose → Option ShouldClose → Bool)
    (state : StateDefinition) (action : MenuAction) : StateDefinition :=
  match action with
  | MenuAction.CloseMenu => closeMenuReducer state
  | MenuAction.OpenMenu => openMenuReducer state
  | MenuAction.GoToItem focus => goToItemReducer state focus
  | MenuAction.Search value => searchReducer state value
  | MenuAction.ClearSearch => clearSearchReducer state
  | MenuAction.RegisterItem id dataRef => registerItemReducer state id dataRef
  | MenuAction.UnregisterItem id => unregisterItemReducer state id
  | MenuAction.SetShouldClose sc => setShouldCloseReducer refEq state sc

/-- The initial state passed to `useReducer` in `Menu` (the two refs are
fresh cells, modelled by distinct tokens). -/
def initialMenuState (shouldClose : Option ShouldClose) : StateDefinition :=
  { menuState := MenuStates.Closed
    buttonRef := 0
    itemsRef := 1
    items := []
    searchQuery := ""
    activeItemIndex := none
    shouldClose := shouldClose.getD defaultShouldClose }

/-- Dispatching a sequence of actions in order. -/
def applyActions (refEq : ShouldClose → Option ShouldClose → Bool)
    (state : StateDefinition) (actions : List MenuAction) : StateDefinition :=
  actions.foldl (stateReducer refEq) state

/-- The active-index invariant: when non-null, `activeItemIndex` is a
valid index into `items` and the item there is not disabled. -/
def activeIndexOk (state : StateDefinition) : Bool :=
  match state.activeItemIndex with
  | none => true
  | some i =>
    match getAtInt? state.items i with
    | some item => !item.dataRef.current.disabled
    | none => false

/-- Recognises the item lifecycle actions `RegisterItem` / `UnregisterItem`. -/
def isItemLifecycleAction : MenuAction → Bool
  | MenuAction.RegisterItem _ _ => true
  | MenuAction.UnregisterItem _ => true
  | _ => false

/-- `useMenuContext`: reading the ambient `MenuContext` value, throwing
(`Except.error`) when no `<Menu />` provider is above.  `Menu.name`
interpolates to `"Menu"`. -/
def useMenuContext (component : Option String) (context : Option α) : Except String α :=
  match context with
  | none =>
      Except.error
        ("<" ++ component.getD "Unknown" ++ " /> is missing a parent <Menu /> component.")
  | some ctx => Except.ok ctx

/-- `compareNumbers` from `utils/` (optional numbers; `a != null` is the
presence test covering both `null` and `undefined`). -/
def compareNumbers (a b : Option Int) : Int :=
  match a, b with
  | some a, some b => if a < b then -1 else if a > b then 1 else 0
  | some _, none => 1
  | none, some _ => -1
  | none, none => 0

/-! ### Theorems -/

/-- Both branches of the `GoToItem` reducer leave the recomputed index
in `activeItemIndex` (the early return fires only when the stored index
already equals the recomputed one). -/
theorem goToItemReducer_activeItemIndex (s : StateDefinition) (focus : Focus) :
    (goToItemReducer s focus).activeItemIndex
      = calculateActiveIndex focus s.items s.activeItemIndex := by
  simp only [goToItemReducer]
  split
  · rename_i h
    exact h.2
  · rfl

/-- C10: `compareNumbers` is antisymmetric, returns 0 when both inputs
are absent, ranks a present value above an absent one, and orders two
present values by numeric comparison. -/
theorem compareNumbers_antisymm_spec (a b : Option Int) (x y : Int) :
    compareNumbers a b = -compareNumbers b a
    ∧ compareNumbers none none = 0
    ∧ compareNumbers (some x) none = 1
    ∧ compareNumbers none (some x) = -1
    ∧ compareNumbers (some x) (some y)
        = (if x < y then -1 else if x > y then 1 else 0) := by
  refine ⟨?_, rfl, rfl, rfl, rfl⟩
  rcases a with _ | a <;> rcases b with _ | b <;> simp [compareNumbers]
  split_ifs <;> omega

/-- C9: `RegisterItem` appends the new record `{id, dataRef}` at the end
of `items` and changes no other field; in particular a null active index
stays null, so registering a first non-disabled item never activates it. -/
theorem registerItem_appends_and_frames (refEq : ShouldClose → Option ShouldClose → Bool)
    (s : StateDefinition) (id : String) (dataRef : MenuItemDataRef) :
    (stateReducer refEq s (MenuAction.RegisterItem id dataRef)).items
        = s.items ++ [{ id := id, dataRef := dataRef }]
    ∧ (stateReducer refEq s (MenuAction.RegisterItem id dataRef)).menuState = s.menuState
    ∧ (stateReducer refEq s (MenuAction.RegisterItem id dataRef)).buttonRef = s.buttonRef
    ∧ (stateReducer refEq s (MenuAction.RegisterItem id dataRef)).itemsRef = s.itemsRef
    ∧ (stateReducer refEq s (MenuAction.RegisterItem id dataRef)).searchQuery = s.searchQuery
    ∧ (stateReducer refEq s (MenuAction.RegisterItem id dataRef)).activeItemIndex = s.activeItemIndex
    ∧ (stateReducer refEq s (MenuAction.RegisterItem id dataRef)).shouldClose = s.shouldClose :=
  ⟨rfl, rfl, rfl, rfl, rfl, rfl, rfl⟩

/-- C8: `useMenuContext` errors when no provider is present, with a
message naming the offending sub-widget (or "Unknown") and the missing
parent `<Menu />`; with a provider it returns the context value. -/
theorem useMenuContext_contract {α : Type} (name : String) (c : α) :
    useMenuContext (some name) (none : Option α)
        = Except.error ("<" ++ name ++ " /> is missing a parent <Menu /> component.")
    ∧ useMenuContext none (none : Option α)
        = Except.error "<Unknown /> is missing a parent <Menu /> component."
    ∧ useMenuContext (some name) (some c) = Except.ok c
    ∧ useMenuContext none (some c) = Except.ok c :=
  ⟨rfl, rfl, rfl, rfl⟩

/-- C6: any `GoToItem` action leaves the search buffer empty and touches
no field besides `searchQuery` and `activeItemIndex`. -/
theorem goToItem_frame (refEq : ShouldClose → Option ShouldClose → Bool)
    (s : StateDefinition) (focus : Focus) :
    (stateReducer refEq s (MenuAction.GoToItem focus)).searchQuery = ""
    ∧ (stateReducer refEq s (MenuAction.GoToItem focus)).menuState = s.menuState
    ∧ (stateReducer refEq s (MenuAction.GoToItem focus)).buttonRef = s.buttonRef
    ∧ (stateReducer refEq s (MenuAction.GoToItem focus)).itemsRef = s.itemsRef
    ∧ (stateReducer refEq s (MenuAction.GoToItem focus)).items = s.items
    ∧ (stateReducer refEq s (MenuAction.GoToItem focus)).shouldClose = s.shouldClose := by
  simp only [stateReducer, goToItemReducer]
  split
  · rename_i h
    exact ⟨h.1, rfl, rfl, rfl, rfl, rfl⟩
  · exact ⟨rfl, rfl, rfl, rfl, rfl, rfl⟩

/-- A closed state that still carries a non-null active index (reachable
because `GoToItem` is not gated on the menu being open). -/
def closedActiveState : StateDefinition :=
  { menuState := MenuStates.Closed
    buttonRef := 0
    itemsRef := 1
    items := [{ id := "a", dataRef := { current := { textValue := some "a", disabled := false } } }]
    searchQuery := ""
    activeItemIndex := some 0
    shouldClose := defaultShouldClose }

/-- C5 counterexample: `CloseMenu` on an already-closed state with a
non-null active index returns the state unchanged, so the result's
`activeItemIndex` is not null — the claim that every `CloseMenu` result
has a null active index fails here. -/
theorem closeMenu_keeps_active_on_closed :
    (stateReducer (fun _ _ => false) closedActiveState MenuAction.CloseMenu).activeItemIndex
      = some 0 := rfl

/-- C5 (amended): `OpenMenu` and `CloseMenu` are idempotent for every
state; `CloseMenu` always yields a closed menu, and yields a null active
index whenever the input state was open (an already-closed state is
returned unchanged, keeping its active index). -/
theorem closeMenu_openMenu_idempotent (refEq : ShouldClose → Option ShouldClose → Bool)
    (s : StateDefinition) :
    stateReducer refEq (stateReducer refEq s MenuAction.CloseMenu) MenuAction.CloseMenu
        = stateReducer refEq s MenuAction.CloseMenu
    ∧ stateReducer refEq (stateReducer refEq s MenuAction.OpenMenu) MenuAction.OpenMenu
        = stateReducer refEq s MenuAction.OpenMenu
    ∧ (stateReducer refEq s MenuAction.CloseMenu).menuState = MenuStates.Closed
    ∧ (s.menuState = MenuStates.Open →
        (stateReducer refEq s MenuAction.CloseMenu).activeItemIndex = none) := by
  show closeMenuReducer (closeMenuReducer s) = closeMenuReducer s ∧ _
  cases h : s.menuState <;>
    simp [closeMenuReducer, openMenuReducer, stateReducer, h]

/-- Witness for C5 (amended) at a concrete open state. -/
theorem closeMenu_openMenu_idempotent_witness :
    ({ closedActiveState with menuState := MenuStates.Open } : StateDefinition).menuState
        = MenuStates.Open
    ∧ (stateReducer (fun _ _ => false)
        { closedActiveState with menuState := MenuStates.Open }
        MenuAction.CloseMenu).activeItemIndex = none :=
  ⟨rfl, (closeMenu_openMenu_idempotent (fun _ _ => false)
    { closedActiveState with menuState := MenuStates.Open }).2.2.2 rfl⟩

/-- C7: `SetShouldClose` installs the given predicate (the always-true
default when the action carries none) and changes no other field.  The
hypothesis is soundness of the reference-equality oracle: a `true`
answer means both operands are the very same function. -/
theorem setShouldClose_spec (refEq : ShouldClose → Option ShouldClose → Bool)
    (hrefEq : ∀ f o, refEq f o = true → o = some f)
    (s : StateDefinition) (p : ShouldClose) :
    (stateReducer refEq s (MenuAction.SetShouldClose (some p))).shouldClose = p
    ∧ (∀ e, (stateReducer refEq s (MenuAction.SetShouldClose none)).shouldClose e = true)
    ∧ (stateReducer refEq s (MenuAction.SetShouldClose (some p))).menuState = s.menuState
    ∧ (stateReducer refEq s (MenuAction.SetShouldClose (some p))).buttonRef = s.buttonRef
    ∧ (stateReducer refEq s (MenuAction.SetShouldClose (some p))).itemsRef = s.itemsRef
    ∧ (stateReducer refEq s (MenuAction.SetShouldClose (some p))).items = s.items
    ∧ (stateReducer refEq s (MenuAction.SetShouldClose (some p))).searchQuery = s.searchQuery
    ∧ (stateReducer refEq s (MenuAction.SetShouldClose (some p))).activeItemIndex
        = s.activeItemIndex
    ∧ (stateReducer refEq s (MenuAction.SetShouldClose none)).menuState = s.menuState
    ∧ (stateReducer refEq s (MenuAction.SetShouldClose none)).buttonRef = s.buttonRef
    ∧ (stateReducer refEq s (MenuAction.SetShouldClose none)).itemsRef = s.itemsRef
    ∧ (stateReducer refEq s (MenuAction.SetShouldClose none)).items = s.items
    ∧ (stateReducer refEq s (MenuAction.SetShouldClose none)).searchQuery = s.searchQuery
    ∧ (stateReducer refEq s (MenuAction.SetShouldClose none)).activeItemIndex
        = s.activeItemIndex := by
  have hsome : (stateReducer refEq s (MenuAction.SetShouldClose (some p)))
      = if refEq s.shouldClose (some p) then s else { s with shouldClose := p } := rfl
  have hnone : (stateReducer refEq s (MenuAction.SetShouldClose none))
      = if refEq s.shouldClose none then s else { s with shouldClose := defaultShouldClose } := rfl
  rw [hsome, hnone]
  have h1 : (if refEq s.shouldClose (some p) then s
      else { s with shouldClose := p }).shouldClose = p := by
    split
    · rename_i h
      have := hrefEq _ _ h
      exact (Option.some.injEq .. ▸ this).symm
    · rfl
  have h2 : ¬refEq s.shouldClose none = true := by
    intro h
    exact Option.noConfusion (hrefEq _ _ h)
  rw [if_neg h2]
  refine ⟨h1, fun e => rfl, ?_⟩
  split <;> exact ⟨rfl, rfl, rfl, rfl, rfl, rfl, rfl, rfl, rfl, rfl, rfl, rfl⟩

/-- Witness for C7: a concrete oracle (constantly false, trivially
sound), state, and predicate. -/
theorem setShouldClose_spec_witness :
    (∀ f o, (fun (_ : ShouldClose) (_ : Option ShouldClose) => false) f o = true → o = some f)
    ∧ (stateReducer (fun _ _ => false) closedActiveState
        (MenuAction.SetShouldClose (some (fun _ => false)))).shouldClose = (fun _ => false)
    ∧ (∀ e, (stateReducer (fun _ _ => false) closedActiveState
        (MenuAction.SetShouldClose none)).shouldClose e = true) :=
  ⟨fun _ _ h => Bool.noConfusion h,
   (setShouldClose_spec (fun _ _ => false) (fun _ _ h => Bool.noConfusion h)
      closedActiveState (fun _ => false)).1,
   (setShouldClose_spec (fun _ _ => false) (fun _ _ h => Bool.noConfusion h)
      closedActiveState (fun _ => false)).2.1⟩

/-- Register/Unregister-only sequences never turn a null active index
into a non-null one. -/
theorem applyActions_lifecycle_active_none
    (refEq : ShouldClose → Option ShouldClose → Bool) (acts : List MenuAction) :
    ∀ s : StateDefinition, (∀ a ∈ acts, isItemLifecycleAction a = true) →
      s.activeItemIndex = none → (applyActions refEq s acts).activeItemIndex = none := by
  induction acts with
  | nil => exact fun s _ h => h
  | cons a rest ih =>
    intro s hall h
    have ha := hall a (List.mem_cons_self a rest)
    have hrest := fun b hb => hall b (List.mem_cons_of_mem a hb)
    show (applyActions refEq (stateReducer refEq s a) rest).activeItemIndex = none
    refine ih (stateReducer refEq s a) hrest ?_
    cases a with
    | RegisterItem id dr => exact h
    | UnregisterItem id =>
      show (unregisterItemReducer s id).activeItemIndex = none
      simp only [unregisterItemReducer, h]
      simp
    | CloseMenu => exact Bool.noConfusion ha
    | OpenMenu => exact Bool.noConfusion ha
    | GoToItem focus => exact Bool.noConfusion ha
    | Search value => exact Bool.noConfusion ha
    | ClearSearch => exact Bool.noConfusion ha
    | SetShouldClose sc => exact Bool.noConfusion ha

/-- C1: along any sequence of `RegisterItem` / `UnregisterItem` actions
from the initial state, the active-index invariant holds: a non-null
`activeItemIndex` is a valid index of `items` whose item is not
disabled.  (These two actions in fact keep the initial null index null,
so the invariant holds vacuously but genuinely.) -/
theorem lifecycle_active_index_invariant
    (refEq : ShouldClose → Option ShouldClose → Bool)
    (sc : Option ShouldClose) (acts : List MenuAction)
    (hacts : ∀ a ∈ acts, isItemLifecycleAction a = true) :
    activeIndexOk (applyActions refEq (initialMenuState sc) acts) = true := by
  have h := applyActions_lifecycle_active_none refEq acts (initialMenuState sc) hacts rfl
  simp only [activeIndexOk, h]

/-- Witness for C1: register two items (one of them disabled), then
unregister one of them. -/
theorem lifecycle_active_index_invariant_witness :
    (∀ a ∈ [MenuAction.RegisterItem "a" { current := { textValue := some "a", disabled := false } },
            MenuAction.RegisterItem "b" { current := { textValue := some "b", disabled := true } },
            MenuAction.UnregisterItem "a"], isItemLifecycleAction a = true)
    ∧ activeIndexOk (applyActions (fun _ _ => false) (initialMenuState none)
        [MenuAction.RegisterItem "a" { current := { textValue := some "a", disabled := false } },
         MenuAction.RegisterItem "b" { current := { textValue := some "b", disabled := true } },
         MenuAction.UnregisterItem "a"]) = true :=
  ⟨by decide, lifecycle_active_index_invariant (fun _ _ => false) none _ (by decide)⟩

/-- The Search transition as the claim states it: the active index
moves to the first item that is not disabled and whose label starts with
the accumulated buffer, "matched case-insensitively" (both sides
lowercased).  This follows the claim's words, for comparison with
`searchReducer`. -/
def searchSpecActiveIndex (state : StateDefinition) (value : String) : Option Int :=
  let buffer := state.searchQuery ++ jsToLowerCase value
  match state.items.findIdx? (fun item =>
      !item.dataRef.current.disabled &&
        (match item.dataRef.current.textValue with
         | some t => jsStartsWith (jsToLowerCase t) (jsToLowerCase buffer)
         | none => false)) with
  | some n => some (n : Int)
  | none => state.activeItemIndex

/-- A state with a single enabled item whose stored label contains an
upper-case letter. -/
def upperCaseLabelState : StateDefinition :=
  { menuState := MenuStates.Open
    buttonRef := 0
    itemsRef := 1
    items := [{ id := "i0", dataRef := { current := { textValue := some "A", disabled := false } } }]
    searchQuery := ""
    activeItemIndex := none
    shouldClose := defaultShouldClose }

/-- C3 counterexample: searching for "A" appends the lowercased "a" to
the empty buffer.  A case-insensitive match (the claim) finds the item
labelled "A" at index 0, but the reducer compares the stored label
case-sensitively against the lowercased buffer and leaves the active
index null. -/
theorem searchReducer_not_case_insensitive :
    (stateReducer (fun _ _ => false) upperCaseLabelState (MenuAction.Search "A")).activeItemIndex
        = none
    ∧ searchSpecActiveIndex upperCaseLabelState "A" = some 0
    ∧ (stateReducer (fun _ _ => false) upperCaseLabelState (MenuAction.Search "A")).activeItemIndex
        ≠ searchSpecActiveIndex upperCaseLabelState "A" := by
  refine ⟨by decide, by decide, by decide⟩

/-- C3 (amended): `Search` appends the lowercased input to the buffer;
the active index moves to the first non-disabled item whose stored label
starts with the accumulated buffer under exact (case-sensitive) string
comparison — only the appended input is lowercased — when such an item
exists, and is otherwise unchanged (a match equal to the current index
also leaves it unchanged). -/
theorem searchReducer_spec (refEq : ShouldClose → Option ShouldClose → Bool)
    (s : StateDefinition) (v : String) :
    (stateReducer refEq s (MenuAction.Search v)).searchQuery
        = s.searchQuery ++ jsToLowerCase v
    ∧ (stateReducer refEq s (MenuAction.Search v)).activeItemIndex =
        (match s.items.findIdx? (fun item =>
            (match item.dataRef.current.textValue with
             | some t => jsStartsWith t (s.searchQuery ++ jsToLowerCase v)
             | none => false) && !item.dataRef.current.disabled) with
         | some n => if s.activeItemIndex = some (n : Int) then s.activeItemIndex else some (n : Int)
         | none => s.activeItemIndex) := by
  constructor
  · simp only [stateReducer, searchReducer]
    split <;> rfl
  · simp only [stateReducer, searchReducer, findIdxInt]
    cases h : s.items.findIdx? (fun item =>
        (match item.dataRef.current.textValue with
         | some t => jsStartsWith t (s.searchQuery ++ jsToLowerCase v)
         | none => false) && !item.dataRef.current.disabled) with
    | none => simp [h]
    | some n =>
      simp only [h]
      have hn : ¬((n : Int) = -1) := by omega
      by_cases hcur : s.activeItemIndex = some (n : Int)
      · rw [if_pos (Or.inr hcur.symm), if_pos hcur]
      · rw [if_neg fun hor => hor.elim hn (fun h2 => hcur h2.symm), if_neg hcur]

/-- C4: `GoToItem` with `First` (resp. `Last`) puts the active index on
the first (resp. last) item with `disabled = false`, and null when no
such item exists (in particular on an empty sequence).  The index
computation is the spec-modelled `calculateActiveIndex`. -/
theorem goToItem_first_last (refEq : ShouldClose → Option ShouldClose → Bool)
    (s : StateDefinition) :
    (stateReducer refEq s (MenuAction.GoToItem Focus.First)).activeItemIndex
        = (s.items.findIdx? (fun it => it.dataRef.current.disabled = false)).map
            (fun n => (n : Int))
    ∧ (stateReducer refEq s (MenuAction.GoToItem Focus.Last)).activeItemIndex
        = (s.items.reverse.findIdx? (fun it => it.dataRef.current.disabled = false)).map
            (fun n => ((s.items.length - 1 - n : Nat) : Int))
    ∧ ((∀ it ∈ s.items, it.dataRef.current.disabled = true) →
        (stateReducer refEq s (MenuAction.GoToItem Focus.First)).activeItemIndex = none
        ∧ (stateReducer refEq s (MenuAction.GoToItem Focus.Last)).activeItemIndex = none) := by
  have hpred : (fun (it : MenuItem) => decide (it.dataRef.current.disabled = false))
      = (fun (it : MenuItem) => !it.dataRef.current.disabled) := by
    funext it
    cases it.dataRef.current.disabled <;> simp
  have h1 : (stateReducer refEq s (MenuAction.GoToItem Focus.First)).activeItemIndex
      = (s.items.findIdx? (fun it => !it.dataRef.current.disabled)).map (fun n => (n : Int)) := by
    show (goToItemReducer s Focus.First).activeItemIndex = _
    rw [goToItemReducer_activeItemIndex]
    simp only [calculateActiveIndex]
  have h2 : (stateReducer refEq s (MenuAction.GoToItem Focus.Last)).activeItemIndex
      = (s.items.reverse.findIdx? (fun it => !it.dataRef.current.disabled)).map
          (fun n => ((s.items.length - 1 - n : Nat) : Int)) := by
    show (goToItemReducer s Focus.Last).activeItemIndex = _
    rw [goToItemReducer_activeItemIndex]
    simp only [calculateActiveIndex]
    cases hr : s.items.reverse.findIdx? (fun it => !it.dataRef.current.disabled) <;> simp [hr]
  refine ⟨by rw [h1, hpred], by rw [h2, hpred], fun hall => ?_⟩
  have hf : s.items.findIdx? (fun it => !it.dataRef.current.disabled) = none := by
    rw [List.findIdx?_eq_none_iff]
    intro x hx
    simp [hall x hx]
  have hl : s.items.reverse.findIdx? (fun it => !it.dataRef.current.disabled) = none := by
    rw [List.findIdx?_eq_none_iff]
    intro x hx
    simp [hall x (List.mem_reverse.mp hx)]
  exact ⟨by rw [h1, hf]; rfl, by rw [h2, hl]; rfl⟩

/-- A state whose items are all disabled. -/
def allDisabledState : StateDefinition :=
  { menuState := MenuStates.Open
    buttonRef := 0
    itemsRef := 1
    items := [{ id := "d0", dataRef := { current := { textValue := some "x", disabled := true } } },
              { id := "d1", dataRef := { current := { textValue := none, disabled := true } } }]
    searchQuery := ""
    activeItemIndex := some 0
    shouldClose := defaultShouldClose }

/-- Witness for C4 on a concrete all-disabled item list. -/
theorem goToItem_first_last_witness :
    (∀ it ∈ allDisabledState.items, it.dataRef.current.disabled = true)
    ∧ (stateReducer (fun _ _ => false) allDisabledState
        (MenuAction.GoToItem Focus.First)).activeItemIndex = none
    ∧ (stateReducer (fun _ _ => false) allDisabledState
        (MenuAction.GoToItem Focus.Last)).activeItemIndex = none :=
  ⟨by decide,
   ((goToItem_first_last (fun _ _ => false) allDisabledState).2.2 (by decide)).1,
   ((goToItem_first_last (fun _ _ => false) allDisabledState).2.2 (by decide)).2⟩

/-- With pairwise-distinct ids, positions are recoverable from ids. -/
theorem id_getElem_inj (l : List MenuItem) (hnd : (l.map MenuItem.id).Nodup)
    {a b : Nat} (ha : a < l.length) (hb : b < l.length)
    (h : l[a].id = l[b].id) : a = b := by
  have ha2 : a < (l.map MenuItem.id).length := by simpa
  have hb2 : b < (l.map MenuItem.id).length := by simpa
  have hm : (l.map MenuItem.id)[a] = (l.map MenuItem.id)[b] := by
    simpa [List.getElem_map] using h
  exact (hnd.getElem_inj_iff).mp hm

/-- With pairwise-distinct ids, `findIndex` by the id of the item at
position `k` answers `k`. -/
theorem findIdx?_id_eq (l : List MenuItem) (k : Nat) (hk : k < l.length)
    (hnd : (l.map MenuItem.id).Nodup) :
    l.findIdx? (fun a => a.id = l[k].id) = some k := by
  rw [List.findIdx?_eq_some_iff_getElem]
  refine ⟨hk, by simp, ?_⟩
  intro q hq hc
  have hqk : q = k := id_getElem_inj l hnd (Nat.lt_trans hq hk) hk (by simpa using hc)
  omega

/-- With pairwise-distinct ids, `indexOf` finds the item previously at
position `i` at its shifted position after erasing position `j ≠ i`
(structural equality agrees with reference equality here because
distinct positions hold records with distinct ids). -/
theorem findIdx?_eraseIdx_item (l : List MenuItem) (i j : Nat)
    (hi : i < l.length) (hj : j < l.length) (hij : j ≠ i)
    (hnd : (l.map MenuItem.id).Nodup) :
    (l.eraseIdx j).findIdx? (fun a => a = l[i]) = some (if j < i then i - 1 else i) := by
  have hlen : (l.eraseIdx j).length = l.length - 1 := List.length_eraseIdx_of_lt hj
  have hne : ∀ (a : Nat) (ha : a < l.length), a ≠ i → ¬(l[a] = l[i]) := by
    intro a ha hane he
    exact hane (id_getElem_inj l hnd ha hi (by rw [he]))
  rw [List.findIdx?_eq_some_iff_getElem]
  by_cases hlt : j < i
  · obtain ⟨p, rfl⟩ : ∃ p, i = p + 1 := ⟨i - 1, by omega⟩
    simp only [if_pos hlt, Nat.add_sub_cancel]
    have hp : p < (l.eraseIdx j).length := by omega
    refine ⟨hp, ?_, ?_⟩
    · have he : (l.eraseIdx j)[p] = l[p + 1] := List.getElem_eraseIdx_of_ge l j p hp (by omega)
      simp [he]
    · intro q hq hc
      by_cases hqj : q < j
      · have he : (l.eraseIdx j)[q] = l[q] := List.getElem_eraseIdx_of_lt l j q (by omega) hqj
        rw [he] at hc
        exact hne q (by omega) (by omega) (by simpa using hc)
      · have he : (l.eraseIdx j)[q] = l[q + 1] :=
          List.getElem_eraseIdx_of_ge l j q (by omega) (by omega)
        rw [he] at hc
        exact hne (q + 1) (by omega) (by omega) (by simpa using hc)
  · simp only [if_neg hlt]
    have hp : i < (l.eraseIdx j).length := by omega
    refine ⟨hp, ?_, ?_⟩
    · have he : (l.eraseIdx j)[i] = l[i] := List.getElem_eraseIdx_of_lt l j i hp (by omega)
      simp [he]
    · intro q hq hc
      have he : (l.eraseIdx j)[q] = l[q] := List.getElem_eraseIdx_of_lt l j q (by omega) (by omega)
      rw [he] at hc
      exact hne q (by omega) (by omega) (by simpa using hc)

/-- After erasing position `j`, the element previously at `i ≠ j` sits
at `i - 1` when `j < i` and still at `i` otherwise. -/
theorem getElem?_eraseIdx_newPos (l : List α) (i j : Nat)
    (hi : i < l.length) (hj : j < l.length) (hij : j ≠ i) :
    (l.eraseIdx j)[(if j < i then i - 1 else i : Nat)]? = some l[i] := by
  have hlen : (l.eraseIdx j).length = l.length - 1 := List.length_eraseIdx_of_lt hj
  by_cases hlt : j < i
  · obtain ⟨p, rfl⟩ : ∃ p, i = p + 1 := ⟨i - 1, by omega⟩
    simp only [if_pos hlt, Nat.add_sub_cancel]
    have hp : p < (l.eraseIdx j).length := by omega
    rw [List.getElem?_eq_getElem hp, List.getElem_eraseIdx_of_ge l j p hp (by omega)]
  · simp only [if_neg hlt]
    have hp : i < (l.eraseIdx j).length := by omega
    rw [List.getElem?_eq_getElem hp, List.getElem_eraseIdx_of_lt l j i hp (by omega)]

/-- C2: when the active index `i` is valid and ids are distinct,
unregistering the active item's id nulls the active index, while
unregistering the id of the item at any other position `j` keeps the
very same item record active, now at position `i - 1` (if `j < i`) or
`i` (otherwise) of the shortened sequence. -/
theorem unregisterItem_active_tracking (refEq : ShouldClose → Option ShouldClose → Bool)
    (s : StateDefinition) (i j : Nat)
    (hact : s.activeItemIndex = some (i : Int))
    (hilen : i < s.items.length) (hjlen : j < s.items.length)
    (hnd : (s.items.map MenuItem.id).Nodup) :
    (stateReducer refEq s (MenuAction.UnregisterItem s.items[i].id)).activeItemIndex = none
    ∧ (j ≠ i →
        (stateReducer refEq s (MenuAction.UnregisterItem s.items[j].id)).activeItemIndex
            = some ((if j < i then i - 1 else i : Nat) : Int)
        ∧ (stateReducer refEq s
            (MenuAction.UnregisterItem s.items[j].id)).items[(if j < i then i - 1 else i : Nat)]?
            = some s.items[i]) := by
  constructor
  · show (unregisterItemReducer s s.items[i].id).activeItemIndex = none
    simp only [unregisterItemReducer, findIdxInt, findIdx?_id_eq s.items i hilen hnd]
    simp [hact]
  · intro hji
    have hidx := findIdx?_id_eq s.items j hjlen hnd
    have hfind := findIdx?_eraseIdx_item s.items i j hilen hjlen hji hnd
    have hc1 : ¬(s.activeItemIndex = some ((j : Nat) : Int)) := by
      rw [hact]
      simp
      omega
    have hc2 : ¬(s.activeItemIndex = none) := by
      rw [hact]
      simp
    constructor
    · show (unregisterItemReducer s s.items[j].id).activeItemIndex = _
      simp only [unregisterItemReducer, findIdxInt, hidx]
      rw [if_neg hc1, if_neg hc2]
      simp only [hact, getAtInt?, List.getElem?_eq_getElem hilen]
      simp [hfind]
    · show (unregisterItemReducer s s.items[j].id).items[_]? = _
      simp only [unregisterItemReducer, findIdxInt, hidx]
      rw [if_neg (by omega : ¬((j : Int) = -1))]
      simp only [Int.toNat_natCast]
      exact getElem?_eraseIdx_newPos s.items i j hilen hjlen hji

/-- A three-item state with distinct ids and active index 1. -/
def threeItemState : StateDefinition :=
  { menuState := MenuStates.Open
    buttonRef := 0
    itemsRef := 1
    items := [{ id := "a", dataRef := { current := { textValue := some "a", disabled := false } } },
              { id := "b", dataRef := { current := { textValue := some "b", disabled := false } } },
              { id := "c", dataRef := { current := { textValue := some "c", disabled := false } } }]
    searchQuery := ""
    activeItemIndex := some 1
    shouldClose := defaultShouldClose }

/-- Witness for C2: active item "b" at index 1; unregistering "b" nulls
the index, unregistering "a" moves the same record "b" to index 0. -/
theorem unregisterItem_active_tracking_witness :
    threeItemState.activeItemIndex = some 1
    ∧ (threeItemState.items.map MenuItem.id).Nodup
    ∧ (stateReducer (fun _ _ => false) threeItemState
        (MenuAction.UnregisterItem "b")).activeItemIndex = none
    ∧ (stateReducer (fun _ _ => false) threeItemState
        (MenuAction.UnregisterItem "a")).activeItemIndex = some 0
    ∧ (stateReducer (fun _ _ => false) threeItemState
        (MenuAction.UnregisterItem "a")).items[0]? = some threeItemState.items[1] := by
  refine ⟨rfl, by decide, ?_, ?_, ?_⟩
  · exact (unregisterItem_active_tracking (fun _ _ => false) threeItemState 1 0 rfl
      (by decide) (by decide) (by decide)).1
  · exact ((unregisterItem_active_tracking (fun _ _ => false) threeItemState 1 0 rfl
      (by decide) (by decide) (by decide)).2 (by decide)).1
  · exact ((unregisterItem_active_tracking (fun _ _ => false) threeItemState 1 0 rfl
      (by decide) (by decide) (by decide)).2 (by decide)).2
